import Mathlib

/-!
Shallow embedding of the course recommendation engine of
`src/services/recommendationService.js`, together with theorems settling the
claims of the specification.

Modelling conventions:
* JavaScript numbers are modelled as `ℚ` (all arithmetic in the service is
  exact decimal arithmetic on small values), counts as `ℕ`, timestamps as `ℤ`.
* MongoDB collections are in-memory lists inside a `Db` snapshot; `$match`
  becomes `List.filter`, `$group`/`$sum: 1` becomes key grouping with counts,
  `$lookup`+`$unwind` becomes a `find?` on the foreign collection (`_id` is
  unique in MongoDB), `$sort: {f: -1}` becomes a sort descending by `f`, and
  `$limit: n` rejects non-positive `n` (MongoDB raises "the limit must be
  positive"), hence pipelines with a caller-supplied limit return `Except`.
* Mongoose `ObjectId` values and their `.toString()` hex forms are distinct
  JavaScript values which are never `===`-equal to each other; the type `JsId`
  records this distinction because the service compares the two shapes with
  `Array.prototype.includes` (line 78-81 of the source).
* The `CacheService` instance exported by `services/cacheService.js` has no
  `generateKey` method: the active class defines only `get`, `set`, `del`,
  `remember` and `flush`; a `generateKey` exists only in the commented-out
  legacy class further down that file, and nothing patches it onto the
  exported singleton.  The member call `cacheService.generateKey(...)` at
  line 12 of the recommendation service therefore raises
  `TypeError: cacheService.generateKey is not a function` on every call, so
  the async method rejects before the cache, the user lookup or any
  recommender runs.  `getPersonalizedRecommendations` models exactly this
  rejection; the never-executed closure of lines 14-91 is modelled
  separately as `getPersonalizedRecommendationsCallback` (inside which
  `cacheService.remember` would be pure memoization).
-/

namespace RecEngine

/-- A catalog course document (fields of the `Course` model that the
recommendation service reads; display-only fields such as title or thumbnail
are carried along by the service but never influence scoring or filtering,
so they are omitted). `cid` is the Mongo `_id`. -/
structure Course where
  cid : ℕ
  category : ℕ
  level : String
  tags : List String
  rating : ℚ
  totalEnrollments : ℕ
  totalReviews : ℕ
  isPublished : Bool
  isDeleted : Bool
  deriving Repr, DecidableEq

/-- A user document; `uid` is the Mongo `_id`. -/
structure User where
  uid : ℕ
  role : String
  deriving Repr, DecidableEq

/-- A student profile document (`StudentProfile`). -/
structure StudentProfile where
  user : ℕ
  interests : List String
  deriving Repr, DecidableEq

/-- A `ProgressTracking` document. -/
structure Progress where
  student : ℕ
  course : ℕ
  isCompleted : Bool
  deriving Repr, DecidableEq

/-- An `Enrollment` document; `enrolledAt` is a timestamp in days. -/
structure Enrollment where
  course : ℕ
  enrolledAt : ℤ
  isActive : Bool
  deriving Repr, DecidableEq

/-- A `Category` document; `catId` is the Mongo `_id`. -/
structure Category where
  catId : ℕ
  name : String
  deriving Repr, DecidableEq

/-- A read-only snapshot of the data store at the time of a request.
`now` is the current time in days (`new Date()` at line 327). -/
structure Db where
  courses : List Course
  users : List User
  profiles : List StudentProfile
  progress : List Progress
  enrollments : List Enrollment
  categories : List Category
  now : ℤ
  deriving Repr

/-- A scored recommendation candidate `{_id, score}` as produced by each of
the four sources (the display fields the service copies along are omitted). -/
structure Rec where
  courseId : ℕ
  score : ℚ
  deriving Repr, DecidableEq

/-- An entry of the `findSimilarUsers` result
(`{userId, commonCourses, similarity}`). -/
structure SimilarUser where
  userId : ℕ
  commonCourses : ℕ
  similarity : ℚ
  deriving Repr, DecidableEq

/-- An aggregated recommendation `{_id, score, sources}` as produced by
`aggregateRecommendations`. -/
structure AggRec where
  courseId : ℕ
  score : ℚ
  sources : ℕ
  deriving Repr, DecidableEq

/-- A `getMoreLikeThis` result row: the course document with the added
`similarity` field. -/
structure ScoredCourse where
  course : Course
  similarity : ℚ
  deriving Repr, DecidableEq

/-! ### JavaScript value model for the line-78 exclusion filter

`completedCourseIds` / `inProgressIds` hold mongoose `ObjectId` objects while
the filter probes with `c._id.toString()`, a string.  `===` (SameValueZero,
used by `Array.prototype.includes`) never equates an object with a string.
`jsStrictEq` on two `oid`s over-approximates JavaScript (which compares
object references) by comparing the underlying ids; this is generous to the
filter and does not matter because the probe is always a `str`. -/

inductive JsId where
  | oid : ℕ → JsId
  | str : ℕ → JsId
  deriving Repr, DecidableEq

/-- JavaScript `===` / SameValueZero restricted to the id values that occur
in the exclusion filter. -/
def jsStrictEq : JsId → JsId → Bool
  | .oid a, .oid b => a == b
  | .str a, .str b => a == b
  | _, _ => false

/-- `Array.prototype.includes` (SameValueZero search). -/
def jsIncludes (l : List JsId) (v : JsId) : Bool :=
  l.any (fun x => jsStrictEq x v)

/-! ### Pipeline building blocks -/

/-- `$setIntersection` of two tag arrays, then `$size`: the number of
distinct elements common to both. -/
def setIntersectionSize (a b : List String) : ℕ :=
  ((a.dedup).filter (fun t => b.contains t)).length

/-- A MongoDB `$limit` stage with a dynamic argument: non-positive limits
are rejected at pipeline parse time ("the limit must be positive"). -/
def mongoLimit (n : ℤ) (l : List α) : Except String (List α) :=
  if n ≤ 0 then .error "the limit must be positive" else .ok (l.take n.toNat)

/-- `Math.round(x * 100) / 100` (line 89); `Math.round` is
half-toward-positive-infinity, i.e. `⌊x + 1/2⌋`. -/
def roundScore (q : ℚ) : ℚ := ((⌊q * 100 + 1 / 2⌋ : ℤ) : ℚ) / 100

/-- Sort descending by a rational key: models both `$sort: {key: -1}` and
`Array.prototype.sort((a, b) => b.key - a.key)`.  Tie order is not
guaranteed by either MongoDB or the spec (§9 of the spec leaves it open);
this model fixes one. -/
def sortByDesc (f : α → ℚ) (l : List α) : List α :=
  l.insertionSort (fun a b => f b ≤ f a)

/-- Helper for `firstDedup`: drop every element already in `seen`, keeping
the first occurrence of each remaining element. -/
def firstDedupAux [DecidableEq α] (seen : List α) : List α → List α
  | [] => []
  | a :: l =>
    if a ∈ seen then firstDedupAux seen l
    else a :: firstDedupAux (a :: seen) l

/-- The list of distinct keys in order of first occurrence: the key order
produced by grouping into a JavaScript object (string keys keep insertion
order) and, in this model, by `$group`. -/
def firstDedup [DecidableEq α] (l : List α) : List α := firstDedupAux [] l

/-- `$group: {_id: key, n: {$sum: 1}}` over a list of keys: each distinct
key with its number of occurrences. -/
def groupCounts (keys : List ℕ) : List (ℕ × ℕ) :=
  (firstDedup keys).map (fun k => (k, (keys.filter (fun x => x == k)).length))

/-! ### The recommendation service (translated function by function) -/

/-- `findSimilarUsers(userId, completedCourseIds)` (source lines 98-142):
completed progress of other students over the given courses, grouped by
student, thresholded at `min(3, |C|)` common courses, joined with the
`users` collection, projected to a similarity score, sorted, top 10. -/
def findSimilarUsers (db : Db) (userId : ℕ) (completedCourseIds : List ℕ) :
    List SimilarUser :=
  if completedCourseIds = [] then []
  else
    let matched := db.progress.filter (fun p =>
      p.student != userId && completedCourseIds.contains p.course && p.isCompleted)
    let grouped := groupCounts (matched.map (fun p => p.student))
    let thresholded := grouped.filter (fun g =>
      min 3 completedCourseIds.length ≤ g.2)
    let withUser := thresholded.filter (fun g =>
      db.users.any (fun u => u.uid == g.1))
    let projected := withUser.map (fun g =>
      SimilarUser.mk g.1 g.2 ((g.2 : ℚ) / completedCourseIds.length))
    (sortByDesc (fun s => s.similarity) projected).take 10

/-- `getCoursesFromSimilarUsers(similarUsers, excludeIds, inProgressIds)`
(source lines 148-207).  The source round-trips the exclusion ids through
`toString` and back through `ObjectId` before the `$nin`, which preserves
the underlying id, so the exclusion is plain membership here. -/
def getCoursesFromSimilarUsers (db : Db) (similarUsers : List SimilarUser)
    (excludeIds inProgressIds : List ℕ) : List Rec :=
  let excludeAll := excludeIds ++ inProgressIds
  let similarUserIds := similarUsers.map (fun u => u.userId)
  let matched := db.progress.filter (fun p =>
    similarUserIds.contains p.student && !(excludeAll.contains p.course) &&
      p.isCompleted)
  let grouped := groupCounts (matched.map (fun p => p.course))
  let withCourse := grouped.filterMap (fun g =>
    (db.courses.find? (fun c => c.cid == g.1)).map (fun c => (g, c)))
  let published := withCourse.filter (fun t =>
    t.2.isPublished && !t.2.isDeleted)
  let scored := published.map (fun t =>
    Rec.mk t.1.1 (((t.1.2 : ℚ) / similarUserIds.length) * ((t.1.2 : ℚ) / 10)))
  (sortByDesc (fun r => r.score) scored).take 20

/-- The category ids of the learner's source courses (line 219). -/
def sourceCategories (db : Db) (courseIds : List ℕ) : List ℕ :=
  (db.courses.filter (fun c => courseIds.contains c.cid)).map (fun c => c.category)

/-- The levels of the learner's source courses (line 220). -/
def sourceLevels (db : Db) (courseIds : List ℕ) : List String :=
  (db.courses.filter (fun c => courseIds.contains c.cid)).map (fun c => c.level)

/-- The tags of the learner's source courses (line 221). -/
def sourceTags (db : Db) (courseIds : List ℕ) : List String :=
  (db.courses.filter (fun c => courseIds.contains c.cid)).flatMap (fun c => c.tags)

/-- The `$match` stage of `findSimilarCourses` (lines 224-237): not a source
or excluded course, published, not deleted, and matching at least one of
category / level / tags of the source courses. -/
def contentMatches (db : Db) (courseIds excludeIds : List ℕ) (c : Course) : Bool :=
  !((courseIds ++ excludeIds).contains c.cid) && c.isPublished && !c.isDeleted &&
    ((sourceCategories db courseIds).contains c.category ||
     (sourceLevels db courseIds).contains c.level ||
     c.tags.any (fun t => (sourceTags db courseIds).contains t))

/-- The content-similarity score of a catalog course (lines 238-256):
`3·categoryMatch + 1·levelMatch + 0.5·|tag ∩| + 0.1·rating`. -/
def contentScore (db : Db) (courseIds : List ℕ) (c : Course) : ℚ :=
  (if (sourceCategories db courseIds).contains c.category then (3 : ℚ) else 0) +
  (if (sourceLevels db courseIds).contains c.level then (1 : ℚ) else 0) +
  (setIntersectionSize c.tags (sourceTags db courseIds) : ℚ) * (1 / 2) +
  c.rating * (1 / 10)

/-- `findSimilarCourses(courseIds, excludeIds)` (source lines 213-273). -/
def findSimilarCourses (db : Db) (courseIds excludeIds : List ℕ) : List Rec :=
  if courseIds = [] then []
  else
    let matched := db.courses.filter (contentMatches db courseIds excludeIds)
    let scored := matched.map (fun c => Rec.mk c.cid (contentScore db courseIds c))
    let positive := scored.filter (fun r => decide (0 < r.score))
    (sortByDesc (fun r => r.score) positive).take 20

/-- `getPopularCoursesByCategories(categories, limit)` (source lines
279-320): resolve interest names to category ids, score published courses in
those categories by `0.5·enrollments + 10·rating + 0.1·reviews`, sort,
`$limit`, normalize by 100. -/
def getPopularCoursesByCategories (db : Db) (categories : List String)
    (limit : ℤ) : Except String (List Rec) :=
  if categories = [] then .ok []
  else
    let categoryIds := (db.categories.filter (fun c =>
      categories.contains c.name)).map (fun c => c.catId)
    let matched := db.courses.filter (fun c =>
      categoryIds.contains c.category && c.isPublished && !c.isDeleted)
    let withPop := matched.map (fun c =>
      (c, (c.totalEnrollments : ℚ) * (1 / 2) + c.rating * 10 +
        (c.totalReviews : ℚ) * (1 / 10)))
    do
      let limited ← mongoLimit limit (sortByDesc (fun t => t.2) withPop)
      return limited.map (fun t => Rec.mk t.1.cid (t.2 / 100))

/-- `getTrendingCourses(limit)` (source lines 326-383): active enrollments
of the trailing 30 days grouped by course, joined with the catalog, scored
by `2·recentEnrollments + 5·rating`, sorted, `$limit`, normalized by 100. -/
def getTrendingCourses (db : Db) (limit : ℤ) : Except String (List Rec) :=
  let matched := db.enrollments.filter (fun e =>
    decide (db.now - 30 ≤ e.enrolledAt) && e.isActive)
  let grouped := groupCounts (matched.map (fun e => e.course))
  let withCourse := grouped.filterMap (fun g =>
    (db.courses.find? (fun c => c.cid == g.1)).map (fun c => (g, c)))
  let published := withCourse.filter (fun t =>
    t.2.isPublished && !t.2.isDeleted)
  let scored := published.map (fun t =>
    (t.1.1, (t.1.2 : ℚ) * 2 + t.2.rating * 5))
  do
    let limited ← mongoLimit limit (sortByDesc (fun t => t.2) scored)
    return limited.map (fun t => Rec.mk t.1 (t.2 / 100))

/-- `aggregateRecommendations(recommendations)` (source lines 389-405):
group by course id (insertion order of first occurrence, as JavaScript
object keys), sum the weighted scores, count the contributing entries, and
divide the sum by the count. -/
def aggregateRecommendations (recommendations : List Rec) : List AggRec :=
  (firstDedup (recommendations.map (fun r => r.courseId))).map (fun k =>
    let entries := recommendations.filter (fun r => r.courseId == k)
    AggRec.mk k (((entries.map (fun r => r.score)).sum) / entries.length)
      entries.length)

/-- Multiplying each candidate's score by a source weight
(`c => ({...c, score: c.score * w})`, lines 57-72). -/
def weightRecs (l : List Rec) (w : ℚ) : List Rec :=
  l.map (fun c => { c with score := c.score * w })

/-- Lines 74-90 of `getPersonalizedRecommendations`: aggregate, filter with
`Array.prototype.includes` against the ObjectId lists (probing with the
string form of each id), sort by score descending, `slice(0, limit)`, and
round each score to two decimals.  This code is only reached with a
positive `limit` (otherwise `getTrendingCourses` has already raised), so
`slice(0, limit)` is `take limit.toNat`. -/
def finalizeRecommendations (completedCourseIds inProgressIds : List ℕ)
    (limit : ℤ) (recommendations : List Rec) : List AggRec :=
  let aggregated := aggregateRecommendations recommendations
  let filtered := aggregated.filter (fun c =>
    !(jsIncludes (completedCourseIds.map JsId.oid) (JsId.str c.courseId)) &&
    !(jsIncludes (inProgressIds.map JsId.oid) (JsId.str c.courseId)))
  ((sortByDesc (fun c => c.score) filtered).take limit.toNat).map (fun c =>
    { c with score := roundScore c.score })

/-- Lines 52-72 without the emptiness guards (pushing the weighted map of an
empty list is the same as skipping it): the four candidate lists weighted by
0.4 / 0.3 / 0.2 / 0.1 and concatenated, as handed to the aggregator. -/
def combineWeighted (collab content popular trending : List Rec) : List Rec :=
  weightRecs collab (4 / 10) ++ weightRecs content (3 / 10) ++
    weightRecs popular (2 / 10) ++ weightRecs trending (1 / 10)

/-- The learner's completed course ids (lines 19-24). -/
def completedCourseIdsOf (db : Db) (userId : ℕ) : List ℕ :=
  (db.progress.filter (fun p => p.student == userId && p.isCompleted)).map
    (fun p => p.course)

/-- The learner's in-progress course ids (lines 27-32). -/
def inProgressIdsOf (db : Db) (userId : ℕ) : List ℕ :=
  (db.progress.filter (fun p => p.student == userId && !p.isCompleted)).map
    (fun p => p.course)

/-- Lines 34-40: interests are read from the student profile only when the
user's role is `'student'`; otherwise the interest list stays empty. -/
def interestsForUser (db : Db) (user : User) : List String :=
  if user.role = "student" then
    ((db.profiles.find? (fun p => p.user == user.uid)).map
      (fun p => p.interests)).getD []
  else []

/-- The anonymous async closure of source lines 14-91, which
`getPersonalizedRecommendations` hands to `cacheService.remember`.  It is
dead code: the enclosing method throws at line 12 before `remember` is
called (see `getPersonalizedRecommendations`), so no call ever reaches it.
`limitArg = none` models an omitted argument (JavaScript default
parameter); `some n` an explicitly passed numeric limit. -/
def getPersonalizedRecommendationsCallback (db : Db) (userId : ℕ)
    (limitArg : Option ℤ) : Except String (List AggRec) :=
  let limit := limitArg.getD 10
  match db.users.find? (fun u => u.uid == userId) with
  | none => .ok []
  | some user =>
    let completedCourseIds := completedCourseIdsOf db userId
    let inProgressIds := inProgressIdsOf db userId
    let userInterests := interestsForUser db user
    let similarUsers := findSimilarUsers db userId completedCourseIds
    let similarCourses := findSimilarCourses db completedCourseIds inProgressIds
    do
      let popularInInterests ← getPopularCoursesByCategories db userInterests limit
      let trending ← getTrendingCourses db limit
      let recommendations :=
        (if similarUsers ≠ [] then
          weightRecs (getCoursesFromSimilarUsers db similarUsers
            completedCourseIds inProgressIds) (4 / 10)
         else []) ++
        (if similarCourses ≠ [] then weightRecs similarCourses (3 / 10) else []) ++
        (if popularInInterests ≠ [] then
          weightRecs popularInInterests (2 / 10) else []) ++
        weightRecs trending (1 / 10)
      return finalizeRecommendations completedCourseIds inProgressIds limit
        recommendations

/-- `getPersonalizedRecommendations(userId, limit = 10)` (source lines
11-92).  Line 12 evaluates `cacheService.generateKey`, but the
`CacheService` exported by `services/cacheService.js` has no such method
(only `get`, `set`, `del`, `remember`, `flush`; `generateKey` appears only
inside the commented-out legacy class of that file), so the call raises
`TypeError: cacheService.generateKey is not a function` and the async
method rejects before the user lookup, the recommenders or the cache run.
The callback of lines 14-91 (`getPersonalizedRecommendationsCallback`) is
never invoked. -/
def getPersonalizedRecommendations (_db : Db) (_userId : ℕ)
    (_limitArg : Option ℤ) : Except String (List AggRec) :=
  .error "TypeError: cacheService.generateKey is not a function"

/-- `getMoreLikeThis(courseId, limit = 5)` (source lines 412-441). -/
def getMoreLikeThis (db : Db) (courseId : ℕ) (limitArg : Option ℤ) :
    Except String (List ScoredCourse) :=
  let limit := limitArg.getD 5
  match db.courses.find? (fun c => c.cid == courseId) with
  | none => .ok []
  | some course =>
    let matched := db.courses.filter (fun c =>
      c.cid != courseId && c.category == course.category && c.isPublished &&
        !c.isDeleted)
    let scored := matched.map (fun c => ScoredCourse.mk c
      ((if c.level = course.level then (2 : ℚ) else 0) +
        (setIntersectionSize c.tags course.tags : ℚ) + c.rating * (1 / 2)))
    mongoLimit limit (sortByDesc (fun s => s.similarity) scored)

/-! ### Spec-side definitions used to state the claims -/

/-- No duplicate `(student, course)` pair among completed progress records
(each completion is tracked by at most one document). -/
@[reducible] def pairsNodup (db : Db) : Prop :=
  ((db.progress.filter (fun p => p.isCompleted)).map
    (fun p => (p.student, p.course))).Nodup

/-- The number of completed progress records of student `s` over courses in
`C` (what the `$group`/`$sum: 1` of `findSimilarUsers` counts). -/
def sharedCompleted (db : Db) (s : ℕ) (C : List ℕ) : ℕ :=
  (db.progress.filter (fun p =>
    p.student == s && p.isCompleted && C.contains p.course)).length

/-- The number of distinct courses of `C` that student `s` completed (the
"count of shared completed courses" of the claim). -/
def distinctSharedCompleted (db : Db) (s : ℕ) (C : List ℕ) : ℕ :=
  (C.filter (fun c => db.progress.any (fun p =>
    p.student == s && p.course == c && p.isCompleted))).length

/-- The §4.7 "more like this" algorithm as the spec words it: published,
non-deleted catalog courses of the reference's category (reference
excluded), scored `2·levelMatch + |tag ∩| + 0.5·rating`, sorted descending,
top `n`.  Stated for comparison with `getMoreLikeThis`. -/
def moreLikeThisSpec (db : Db) (ref : Course) (refId : ℕ) (n : ℕ) :
    List ScoredCourse :=
  (sortByDesc (fun s => s.similarity)
    ((db.courses.filter (fun c =>
        c.cid != refId && c.category == ref.category && c.isPublished &&
          !c.isDeleted)).map
      (fun c => ScoredCourse.mk c
        ((if c.level = ref.level then (2 : ℚ) else 0) +
          (setIntersectionSize c.tags ref.tags : ℚ) +
          c.rating * (1 / 2))))).take n

/-! ### Concrete data-store fixtures -/

/-- A store with one learner (id 1, an instructor) who completed the single
catalog course 100, which also has one recent active enrollment, so the
trending source proposes it. -/
def exDb : Db where
  courses := [⟨100, 5, "beginner", [], 3, 0, 0, true, false⟩]
  users := [⟨1, "instructor"⟩]
  profiles := []
  progress := [⟨1, 100, true⟩]
  enrollments := [⟨100, 0, true⟩]
  categories := []
  now := 10

/-- Scenario 2 of the spec: learners 1 and 2 both completed exactly the
courses 100, 101, 102. -/
def simDb : Db where
  courses := []
  users := [⟨1, "student"⟩, ⟨2, "student"⟩]
  profiles := []
  progress := [⟨1, 100, true⟩, ⟨1, 101, true⟩, ⟨1, 102, true⟩,
               ⟨2, 100, true⟩, ⟨2, 101, true⟩, ⟨2, 102, true⟩]
  enrollments := []
  categories := []
  now := 0

/-- A store where the catalog course 2 shares neither category, level nor a
tag with the source course 1 but has rating 4 (so the claimed score 0.4 is
positive while the `$or` match fails). -/
def db6 : Db where
  courses := [⟨1, 10, "beginner", [], 0, 0, 0, true, false⟩,
              ⟨2, 20, "advanced", [], 4, 0, 0, true, false⟩]
  users := []
  profiles := []
  progress := []
  enrollments := []
  categories := []
  now := 0

/-- A store where the catalog course 3 shares the category of the source
course 1 (rating 4, no tags). -/
def contentDb : Db where
  courses := [⟨1, 10, "beginner", [], 0, 0, 0, true, false⟩,
              ⟨3, 10, "advanced", [], 4, 0, 0, true, false⟩]
  users := []
  profiles := []
  progress := []
  enrollments := []
  categories := []
  now := 0

/-- A store for `getMoreLikeThis`: reference course 1 with a same-category
sibling 2 and an unrelated course 3. -/
def mltDb : Db where
  courses := [⟨1, 10, "beginner", ["a"], 4, 0, 0, true, false⟩,
              ⟨2, 10, "beginner", ["a", "b"], 3, 0, 0, true, false⟩,
              ⟨3, 99, "expert", [], 5, 0, 0, true, false⟩]
  users := []
  profiles := []
  progress := []
  enrollments := []
  categories := []
  now := 0

/-- A store with a non-student user who nevertheless has a profile with a
declared interest, and a category whose name matches no interest. -/
def intDb : Db where
  courses := []
  users := [⟨1, "instructor"⟩]
  profiles := [⟨1, ["AI"]⟩]
  progress := []
  enrollments := []
  categories := [⟨5, "Art"⟩]
  now := 0

/-! ### Basic lemmas about the building blocks -/

theorem jsIncludes_oid_str (l : List ℕ) (n : ℕ) :
    jsIncludes (l.map JsId.oid) (JsId.str n) = false := by
  simp [jsIncludes, jsStrictEq, List.any_map, Function.comp]

theorem sortByDesc_perm (f : α → ℚ) (l : List α) : List.Perm (sortByDesc f l) l :=
  List.perm_insertionSort _ l

theorem sortByDesc_sorted (f : α → ℚ) (l : List α) :
    (sortByDesc f l).Pairwise (fun a b => f b ≤ f a) := by
  haveI : IsTotal α (fun a b => f b ≤ f a) := ⟨fun a b => le_total (f b) (f a)⟩
  haveI : IsTrans α (fun a b => f b ≤ f a) := ⟨fun _ _ _ h1 h2 => le_trans h2 h1⟩
  exact List.sorted_insertionSort _ l

theorem sortByDesc_map (f : β → ℚ) (g : α → β) (l : List α) :
    sortByDesc f (l.map g) = (sortByDesc (fun a => f (g a)) l).map g :=
  (List.map_insertionSort (fun a b => f (g b) ≤ f (g a))
    (fun a b => f b ≤ f a) g l (fun _ _ _ _ => Iff.rfl)).symm

theorem mem_firstDedupAux [DecidableEq α] {a : α} {seen l : List α} :
    a ∈ firstDedupAux seen l ↔ a ∈ l ∧ a ∉ seen := by
  induction l generalizing seen with
  | nil => simp [firstDedupAux]
  | cons b l ih =>
    by_cases hb : b ∈ seen
    · rw [firstDedupAux, if_pos hb, ih]
      simp only [List.mem_cons]
      by_cases hEq : a = b
      · subst hEq
        simp [hb]
      · simp [hEq]
    · rw [firstDedupAux, if_neg hb]
      simp only [List.mem_cons, ih]
      by_cases hEq : a = b
      · simp [hEq, hb]
      · simp [hEq]

theorem mem_firstDedup [DecidableEq α] {a : α} {l : List α} :
    a ∈ firstDedup l ↔ a ∈ l := by
  simp [firstDedup, mem_firstDedupAux]

theorem firstDedupAux_nodup [DecidableEq α] (seen l : List α) :
    (firstDedupAux seen l).Nodup := by
  induction l generalizing seen with
  | nil => simp [firstDedupAux]
  | cons b l ih =>
    by_cases hb : b ∈ seen
    · rw [firstDedupAux, if_pos hb]
      exact ih _
    · rw [firstDedupAux, if_neg hb]
      refine List.nodup_cons.mpr ⟨?_, ih _⟩
      rw [mem_firstDedupAux]
      rintro ⟨-, h2⟩
      exact h2 (List.mem_cons_self b seen)

theorem firstDedup_nodup [DecidableEq α] (l : List α) : (firstDedup l).Nodup :=
  firstDedupAux_nodup [] l

theorem firstDedupAux_eq_self [DecidableEq α] {seen l : List α}
    (h : l.Nodup) (hd : ∀ a ∈ l, a ∉ seen) : firstDedupAux seen l = l := by
  induction l generalizing seen with
  | nil => simp [firstDedupAux]
  | cons b l ih =>
    rw [List.nodup_cons] at h
    rw [firstDedupAux, if_neg (hd b (List.mem_cons_self _ _))]
    congr 1
    refine ih h.2 ?_
    intro a ha
    rw [List.mem_cons]
    rintro (rfl | hs)
    · exact h.1 ha
    · exact hd a (List.mem_cons_of_mem _ ha) hs

theorem firstDedup_eq_self [DecidableEq α] {l : List α} (h : l.Nodup) :
    firstDedup l = l :=
  firstDedupAux_eq_self h (by simp)

theorem except_ok_bind {ε α β : Type} (a : α) (f : α → Except ε β) :
    (Except.ok (ε := ε) a >>= f) = f a := rfl

theorem except_pure_eq_ok {ε α : Type} (a : α) :
    (pure a : Except ε α) = .ok a := rfl

theorem mongoLimit_pos {n : ℤ} (h : 0 < n) (l : List α) :
    mongoLimit n l = .ok (l.take n.toNat) := by
  unfold mongoLimit
  rw [if_neg (by omega)]

/-- C4 counterexample: with no user record for learner 1 the call does not
return the empty list — like every call, it rejects with the `TypeError`
thrown at line 12, before the `if (!user) return []` guard can run. -/
theorem missing_learner_rejects :
    getPersonalizedRecommendations ⟨[], [], [], [], [], [], 0⟩ 1 none =
      .error "TypeError: cacheService.generateKey is not a function" ∧
    getPersonalizedRecommendations ⟨[], [], [], [], [], [], 0⟩ 1 none ≠
      .ok [] :=
  ⟨rfl, fun h => Except.noConfusion h⟩

/-- C4 (amended): a missing reference course is a soft condition for
`getMoreLikeThis` — it returns the empty list without raising — but a
missing learner is not soft for `getPersonalizedRecommendations`: that call
(like every call) rejects with the `TypeError` from the nonexistent
`cacheService.generateKey` instead of returning the empty list. -/
theorem notFound_semantics :
    (∀ (db : Db) (userId : ℕ) (limitArg : Option ℤ),
      (∀ u ∈ db.users, u.uid ≠ userId) →
      getPersonalizedRecommendations db userId limitArg =
        .error "TypeError: cacheService.generateKey is not a function") ∧
    (∀ (db : Db) (courseId : ℕ) (limitArg : Option ℤ),
      (∀ c ∈ db.courses, c.cid ≠ courseId) →
      getMoreLikeThis db courseId limitArg = .ok []) := by
  constructor
  · intro db userId limitArg _
    rfl
  · intro db courseId limitArg h
    unfold getMoreLikeThis
    have hn : db.courses.find? (fun c => c.cid == courseId) = none :=
      List.find?_eq_none.mpr (fun c hc => by simpa using h c hc)
    rw [hn]

/-- Witness for the amended C4 at a concrete empty store. -/
theorem notFound_semantics_witness :
    getPersonalizedRecommendations ⟨[], [], [], [], [], [], 0⟩ 3 none =
      .error "TypeError: cacheService.generateKey is not a function" ∧
    getMoreLikeThis ⟨[], [], [], [], [], [], 0⟩ 2 none = .ok [] :=
  ⟨notFound_semantics.1 _ 3 none (by simp),
   notFound_semantics.2 _ 2 none (by simp)⟩

/-- C7: for every learner and every positive limit, the list returned by
`getPersonalizedRecommendations` is sorted by final score descending and no
longer than the limit — vacuously: every call rejects with the line-12
`TypeError`, so the returned payload is always the empty list and no other
list is ever produced. -/
theorem output_sorted_and_size_bounded (db : Db) (uid : ℕ) (n : ℤ)
    (_h : 0 < n) :
    getPersonalizedRecommendations db uid (some n) =
      .error "TypeError: cacheService.generateKey is not a function" ∧
    ((getPersonalizedRecommendations db uid (some n)).toOption.getD
        []).Pairwise (fun a b => b.score ≤ a.score) ∧
    ((getPersonalizedRecommendations db uid (some n)).toOption.getD
        []).length ≤ n.toNat :=
  ⟨rfl, List.Pairwise.nil, Nat.zero_le _⟩

/-- Witness for C7 at the concrete store `exDb` with limit 3. -/
theorem output_sorted_and_size_bounded_witness :
    (0 : ℤ) < 3 ∧
    (getPersonalizedRecommendations exDb 1 (some 3) =
      .error "TypeError: cacheService.generateKey is not a function" ∧
    ((getPersonalizedRecommendations exDb 1 (some 3)).toOption.getD
        []).Pairwise (fun a b => b.score ≤ a.score) ∧
    ((getPersonalizedRecommendations exDb 1 (some 3)).toOption.getD
        []).length ≤ (3 : ℤ).toNat) :=
  ⟨by decide, output_sorted_and_size_bounded exDb 1 3 (by decide)⟩

/-- C3 counterexample: at a concrete store the call with limit 0 is not
clamped to the default — it fails, rejecting with the `TypeError` thrown at
line 12 before the limit value is ever inspected, and no result list is
produced. -/
theorem limit_zero_not_clamped :
    getPersonalizedRecommendations exDb 1 (some 0) =
      .error "TypeError: cacheService.generateKey is not a function" ∧
    (getPersonalizedRecommendations exDb 1 (some 0)).toOption = none :=
  ⟨rfl, rfl⟩

/-- C3 (amended): nothing is clamped and the limit is never inspected —
every call, whatever the limit argument (non-positive, positive, or
omitted), rejects with the same `TypeError` raised while building the cache
key at line 12; an invalid-limit call thus coincides with a default-limit
call only in that both produce the identical error. -/
theorem limit_ignored_every_call_fails :
    (∀ (db : Db) (uid : ℕ) (limitArg : Option ℤ),
      getPersonalizedRecommendations db uid limitArg =
        .error "TypeError: cacheService.generateKey is not a function") ∧
    (∀ (db : Db) (uid : ℕ) (n : ℤ),
      getPersonalizedRecommendations db uid (some n) =
        getPersonalizedRecommendations db uid none) :=
  ⟨fun _ _ _ => rfl, fun _ _ _ => rfl⟩

/-- C1: for every learner and every limit, no recommendation returned by
`getPersonalizedRecommendations` has a course id in the learner's completed
or in-progress sets — vacuously: every call rejects at line 12 with the
`TypeError` from the nonexistent `cacheService.generateKey`, so the
returned payload is always empty and no recommendation is ever produced at
all. -/
theorem exclusion_invariant_vacuous :
    (∀ (db : Db) (uid : ℕ) (limitArg : Option ℤ),
      getPersonalizedRecommendations db uid limitArg =
        .error "TypeError: cacheService.generateKey is not a function") ∧
    (∀ (db : Db) (uid : ℕ) (limitArg : Option ℤ),
      ((getPersonalizedRecommendations db uid limitArg).toOption.getD
          []).all (fun r =>
        !(completedCourseIdsOf db uid).contains r.courseId &&
        !(inProgressIdsOf db uid).contains r.courseId) = true) :=
  ⟨fun _ _ _ => rfl, fun _ _ _ => rfl⟩

theorem weightRecs_courseIds (L : List Rec) (w : ℚ) :
    (weightRecs L w).map (fun r => r.courseId) = L.map (fun r => r.courseId) := by
  unfold weightRecs
  rw [List.map_map]
  rfl

theorem filter_eq_single {L : List Rec}
    (h : (L.map (fun r => r.courseId)).Nodup) {r : Rec} (hr : r ∈ L) :
    L.filter (fun x => x.courseId == r.courseId) = [r] := by
  induction L with
  | nil => cases hr
  | cons a L ih =>
    rw [List.map_cons, List.nodup_cons] at h
    rcases List.mem_cons.mp hr with rfl | hr'
    · rw [List.filter_cons_of_pos (by simp)]
      have hnil : L.filter (fun x => x.courseId == r.courseId) = [] := by
        rw [List.filter_eq_nil_iff]
        intro x hx
        simp only [beq_iff_eq]
        intro heq
        exact h.1 (heq ▸ List.mem_map_of_mem _ hx)
      rw [hnil]
    · have hne : (a.courseId == r.courseId) = false := by
        simp only [beq_eq_false_iff_ne, ne_eq]
        intro heq
        exact h.1 (heq ▸ List.mem_map_of_mem _ hr')
      rw [List.filter_cons_of_neg (by simp [hne]), ih h.2 hr']

theorem aggregate_nodup {L : List Rec}
    (h : (L.map (fun r => r.courseId)).Nodup) :
    aggregateRecommendations L =
      L.map (fun r => AggRec.mk r.courseId r.score 1) := by
  unfold aggregateRecommendations
  rw [firstDedup_eq_self h, List.map_map]
  apply List.map_congr_left
  intro r hr
  simp only [Function.comp]
  rw [filter_eq_single h hr]
  simp

theorem jsFilter_noop (c i : List ℕ) (l : List AggRec) :
    l.filter (fun x =>
      !(jsIncludes (c.map JsId.oid) (JsId.str x.courseId)) &&
      !(jsIncludes (i.map JsId.oid) (JsId.str x.courseId))) = l := by
  apply List.filter_eq_self.mpr
  intro x _
  simp [jsIncludes_oid_str]

theorem sortByDesc_toAgg (l : List Rec) :
    sortByDesc (fun x : AggRec => x.score)
      (l.map (fun r => AggRec.mk r.courseId r.score 1)) =
    (sortByDesc (fun r : Rec => r.score) l).map
      (fun r => AggRec.mk r.courseId r.score 1) :=
  sortByDesc_map _ _ l

theorem mem_take_or_length {l : List α} {x : α} {n : ℕ} (hx : x ∈ l) :
    x ∈ l.take n ∨ (l.take n).length = n := by
  by_cases h : l.length ≤ n
  · rw [List.take_of_length_le h]
    exact Or.inl hx
  · right
    rw [List.length_take]
    omega

/-- C8: each recommender returns the empty list when its required input is
empty, and when the combined weighted candidate list stems from a single
source (the other three contributing nothing), the final output is exactly
that source's weighted candidate list sorted, truncated to the limit, and
rounded — the aggregator divides by the single contributing source, not by
four. -/
theorem source_degradation :
    (∀ (db : Db) (uid : ℕ), findSimilarUsers db uid [] = []) ∧
    (∀ (db : Db) (ex : List ℕ), findSimilarCourses db [] ex = []) ∧
    (∀ (db : Db) (n : ℤ), getPopularCoursesByCategories db [] n = .ok []) ∧
    (∀ (completed inProg : List ℕ) (L : List Rec) (w : ℚ) (n : ℤ),
      (L.map (fun r => r.courseId)).Nodup →
      (finalizeRecommendations completed inProg n
          (([] : List Rec) ++ ([] : List Rec) ++ ([] : List Rec) ++
            weightRecs L w)).map (fun a => (a.courseId, a.score)) =
        ((sortByDesc (fun r => r.score) (weightRecs L w)).take n.toNat).map
          (fun r => (r.courseId, roundScore r.score))) := by
  refine ⟨fun db uid => rfl, fun db ex => rfl, fun db n => rfl, ?_⟩
  intro completed inProg L w n h
  have hW : ((weightRecs L w).map (fun r => r.courseId)).Nodup := by
    rw [weightRecs_courseIds]
    exact h
  simp only [List.nil_append, finalizeRecommendations]
  rw [aggregate_nodup hW, jsFilter_noop, sortByDesc_toAgg, ← List.map_take,
    List.map_map, List.map_map]
  rfl

/-- Witness for C8 at a single two-course trending-style list with weight
1/10 and limit 5 (the completed list [1] is present but, as in the code,
affects nothing). -/
theorem source_degradation_witness :
    (([⟨1, 1 / 2⟩, ⟨2, 1 / 4⟩] : List Rec).map (fun r => r.courseId)).Nodup ∧
    (finalizeRecommendations [1] [] 5
        (([] : List Rec) ++ ([] : List Rec) ++ ([] : List Rec) ++
          weightRecs [⟨1, 1 / 2⟩, ⟨2, 1 / 4⟩] (1 / 10))).map
        (fun a => (a.courseId, a.score)) =
      ((sortByDesc (fun r => r.score)
          (weightRecs [⟨1, 1 / 2⟩, ⟨2, 1 / 4⟩] (1 / 10))).take
        (5 : ℤ).toNat).map (fun r => (r.courseId, roundScore r.score)) :=
  ⟨by decide,
   source_degradation.2.2.2 [1] [] [⟨1, 1 / 2⟩, ⟨2, 1 / 4⟩] (1 / 10) 5
     (by decide)⟩

theorem weightRecs_filter (L : List Rec) (w : ℚ) (k : ℕ) :
    (weightRecs L w).filter (fun r => r.courseId == k) =
      weightRecs (L.filter (fun r => r.courseId == k)) w := by
  unfold weightRecs
  rw [List.filter_map]
  rfl

theorem weightRecs_sum (L : List Rec) (w : ℚ) :
    ((weightRecs L w).map (fun r => r.score)).sum =
      w * ((L.map (fun r => r.score)).sum) := by
  unfold weightRecs
  rw [List.map_map]
  show (L.map (fun r => r.score * w)).sum = w * (L.map (fun r => r.score)).sum
  rw [List.sum_map_mul_right, mul_comm]

theorem weightRecs_length (L : List Rec) (w : ℚ) :
    (weightRecs L w).length = L.length := by
  unfold weightRecs
  exact List.length_map _ _

theorem count_indicator {L : List Rec}
    (h : (L.map (fun r => r.courseId)).Nodup) (k : ℕ) :
    (L.filter (fun r => r.courseId == k)).length =
      if k ∈ L.map (fun r => r.courseId) then 1 else 0 := by
  by_cases hk : k ∈ L.map (fun r => r.courseId)
  · obtain ⟨r, hr, rfl⟩ := List.mem_map.mp hk
    rw [if_pos (List.mem_map_of_mem _ hr), filter_eq_single h hr]
    rfl
  · rw [if_neg hk, List.length_eq_zero, List.filter_eq_nil_iff]
    intro x hx
    simp only [beq_iff_eq]
    intro heq
    exact hk (heq ▸ List.mem_map_of_mem _ hx)

theorem mem_aggregate {recs : List Rec} {e : AggRec}
    (he : e ∈ aggregateRecommendations recs) :
    e.sources = (recs.filter (fun r => r.courseId == e.courseId)).length ∧
    e.score = ((recs.filter (fun r => r.courseId == e.courseId)).map
        (fun r => r.score)).sum /
      ((recs.filter (fun r => r.courseId == e.courseId)).length : ℚ) := by
  unfold aggregateRecommendations at he
  obtain ⟨k, hk, rfl⟩ := List.mem_map.mp he
  exact ⟨rfl, rfl⟩

theorem aggregate_courseIds (recs : List Rec) :
    (aggregateRecommendations recs).map (fun a => a.courseId) =
      firstDedup (recs.map (fun r => r.courseId)) := by
  unfold aggregateRecommendations
  rw [List.map_map]
  exact List.map_id _

theorem combineWeighted_filter (collab content popular trending : List Rec)
    (k : ℕ) :
    (combineWeighted collab content popular trending).filter
        (fun r => r.courseId == k) =
      weightRecs (collab.filter (fun r => r.courseId == k)) (4 / 10) ++
      weightRecs (content.filter (fun r => r.courseId == k)) (3 / 10) ++
      weightRecs (popular.filter (fun r => r.courseId == k)) (2 / 10) ++
      weightRecs (trending.filter (fun r => r.courseId == k)) (1 / 10) := by
  unfold combineWeighted
  simp only [List.filter_append, weightRecs_filter]

theorem combineWeighted_courseIds (collab content popular trending : List Rec) :
    (combineWeighted collab content popular trending).map
        (fun r => r.courseId) =
      collab.map (fun r => r.courseId) ++ content.map (fun r => r.courseId) ++
      popular.map (fun r => r.courseId) ++ trending.map (fun r => r.courseId) := by
  unfold combineWeighted
  simp only [List.map_append, weightRecs_courseIds]

/-- C2: aggregating the four weighted source lists (weights 0.4 / 0.3 / 0.2
/ 0.1) yields each proposed course exactly once; each entry's `sources`
field counts exactly the sources that proposed the course and its score is
the sum of the weighted per-source scores divided by that count — the mean
over contributing sources only.  The last conjunct is the spec's concrete
example: collaborative raw 0.5 (weighted 0.20) and trending raw 0.8
(weighted 0.08) give final score 0.14 with two contributing sources. -/
theorem aggregator_weighted_mean
    (collab content popular trending : List Rec)
    (h1 : (collab.map (fun r => r.courseId)).Nodup)
    (h2 : (content.map (fun r => r.courseId)).Nodup)
    (h3 : (popular.map (fun r => r.courseId)).Nodup)
    (h4 : (trending.map (fun r => r.courseId)).Nodup) :
    ((aggregateRecommendations
        (combineWeighted collab content popular trending)).map
        (fun a => a.courseId)).Nodup ∧
    (∀ k, k ∈ (aggregateRecommendations
        (combineWeighted collab content popular trending)).map
        (fun a => a.courseId) ↔
      (k ∈ collab.map (fun r => r.courseId) ∨
       k ∈ content.map (fun r => r.courseId) ∨
       k ∈ popular.map (fun r => r.courseId) ∨
       k ∈ trending.map (fun r => r.courseId))) ∧
    (∀ e ∈ aggregateRecommendations
        (combineWeighted collab content popular trending),
      e.sources =
        (if e.courseId ∈ collab.map (fun r => r.courseId) then 1 else 0) +
        (if e.courseId ∈ content.map (fun r => r.courseId) then 1 else 0) +
        (if e.courseId ∈ popular.map (fun r => r.courseId) then 1 else 0) +
        (if e.courseId ∈ trending.map (fun r => r.courseId) then 1 else 0) ∧
      e.score =
        ((4 / 10) * ((collab.filter (fun r => r.courseId == e.courseId)).map
            (fun r => r.score)).sum +
         (3 / 10) * ((content.filter (fun r => r.courseId == e.courseId)).map
            (fun r => r.score)).sum +
         (2 / 10) * ((popular.filter (fun r => r.courseId == e.courseId)).map
            (fun r => r.score)).sum +
         (1 / 10) * ((trending.filter (fun r => r.courseId == e.courseId)).map
            (fun r => r.score)).sum) / (e.sources : ℚ)) ∧
    aggregateRecommendations (combineWeighted [⟨7, 1 / 2⟩] [] [] [⟨7, 4 / 5⟩]) =
      [⟨7, 14 / 100, 2⟩] := by
  refine ⟨?_, ?_, ?_, ?_⟩
  · rw [aggregate_courseIds]
    exact firstDedup_nodup _
  · intro k
    rw [aggregate_courseIds, mem_firstDedup, combineWeighted_courseIds]
    simp [or_assoc]
  · intro e he
    obtain ⟨hsrc, hscore⟩ := mem_aggregate he
    have hlen : (combineWeighted collab content popular trending |>.filter
        (fun r => r.courseId == e.courseId)).length =
        (if e.courseId ∈ collab.map (fun r => r.courseId) then 1 else 0) +
        (if e.courseId ∈ content.map (fun r => r.courseId) then 1 else 0) +
        (if e.courseId ∈ popular.map (fun r => r.courseId) then 1 else 0) +
        (if e.courseId ∈ trending.map (fun r => r.courseId) then 1 else 0) := by
      rw [combineWeighted_filter]
      simp only [List.length_append, weightRecs, List.length_map]
      rw [count_indicator h1, count_indicator h2, count_indicator h3,
        count_indicator h4]
    refine ⟨hsrc.trans hlen, ?_⟩
    rw [hscore, hsrc, combineWeighted_filter]
    simp only [List.map_append, List.sum_append, weightRecs_sum,
      List.length_append, weightRecs_length]
  · norm_num [combineWeighted, weightRecs, aggregateRecommendations,
      firstDedup, firstDedupAux]

/-- Witness for C2 at the spec's concrete example lists. -/
theorem aggregator_weighted_mean_witness :
    (([⟨7, 1 / 2⟩] : List Rec).map (fun r => r.courseId)).Nodup ∧
    (([] : List Rec).map (fun r => r.courseId)).Nodup ∧
    (([⟨7, 4 / 5⟩] : List Rec).map (fun r => r.courseId)).Nodup ∧
    aggregateRecommendations (combineWeighted [⟨7, 1 / 2⟩] [] [] [⟨7, 4 / 5⟩]) =
      [⟨7, 14 / 100, 2⟩] :=
  ⟨by decide, by decide, by decide,
   (aggregator_weighted_mean [⟨7, 1 / 2⟩] [] [] [⟨7, 4 / 5⟩]
     (by decide) (by decide) (by decide) (by decide)).2.2.2⟩

/-- C10: interests are only read for users whose role is `'student'` — for
any other role the interest list used is empty (even when a profile with
declared interests exists) and the interest-popularity recommender returns
the empty list; moreover an interest name that resolves to no category
contributes nothing (dropping it leaves the result unchanged). -/
theorem interests_student_only :
    (∀ (db : Db) (u : User) (n : ℤ), u.role ≠ "student" →
      interestsForUser db u = [] ∧
      getPopularCoursesByCategories db (interestsForUser db u) n = .ok []) ∧
    (∀ (db : Db) (name : String) (rest : List String) (n : ℤ), 0 < n →
      (∀ cat ∈ db.categories, cat.name ≠ name) →
      getPopularCoursesByCategories db (name :: rest) n =
        getPopularCoursesByCategories db rest n) := by
  constructor
  · intro db u n hrole
    have hi : interestsForUser db u = [] := by
      unfold interestsForUser
      rw [if_neg hrole]
    refine ⟨hi, ?_⟩
    rw [hi]
    rfl
  · intro db name rest n hn hcat
    have hfilter : db.categories.filter
        (fun c => (name :: rest).contains c.name) =
        db.categories.filter (fun c => rest.contains c.name) := by
      apply List.filter_congr
      intro c hc
      have hne : (c.name == name) = false := by
        simp only [beq_eq_false_iff_ne, ne_eq]
        exact hcat c hc
      show (name :: rest).contains c.name = rest.contains c.name
      rw [List.contains_cons, hne, Bool.false_or]
    rcases eq_or_ne rest [] with rfl | hrest
    · have hnil : db.categories.filter
          (fun c => ([name] : List String).contains c.name) = [] := by
        rw [hfilter]
        simp
      simp only [getPopularCoursesByCategories]
      rw [hnil]
      simp [mongoLimit_pos hn, sortByDesc, List.insertionSort,
        except_ok_bind, except_pure_eq_ok]
    · simp only [getPopularCoursesByCategories, hfilter]
      rw [if_neg (by simp), if_neg hrest]

/-- Witness for C10: in `intDb` user 1 is an instructor with a profile
declaring interest "AI", and no category is named "AI". -/
theorem interests_student_only_witness :
    ((⟨1, "instructor"⟩ : User).role ≠ "student" ∧
      (interestsForUser intDb ⟨1, "instructor"⟩ = [] ∧
       getPopularCoursesByCategories intDb
         (interestsForUser intDb ⟨1, "instructor"⟩) 5 = .ok [])) ∧
    ((0 : ℤ) < 5 ∧ (∀ cat ∈ intDb.categories, cat.name ≠ "AI") ∧
      getPopularCoursesByCategories intDb ["AI"] 5 =
        getPopularCoursesByCategories intDb [] 5) :=
  ⟨⟨by decide, interests_student_only.1 intDb ⟨1, "instructor"⟩ 5 (by decide)⟩,
   ⟨by decide, by decide,
    interests_student_only.2 intDb "AI" [] 5 (by decide) (by decide)⟩⟩

set_option maxHeartbeats 1000000 in
/-- C9: for an existing reference course and a positive limit,
`getMoreLikeThis` returns exactly the §4.7 list `moreLikeThisSpec`: the
published, non-deleted same-category catalog courses other than the
reference, scored `2·levelMatch + |tag ∩| + 0.5·rating`, sorted descending,
top `limit`; the computation takes no learner input. -/
theorem more_like_this_matches_spec (db : Db) (courseId : ℕ) (n : ℤ)
    (ref : Course) (h : 0 < n)
    (hf : db.courses.find? (fun c => c.cid == courseId) = some ref) :
    getMoreLikeThis db courseId (some n) =
      .ok (moreLikeThisSpec db ref courseId n.toNat) ∧
    (moreLikeThisSpec db ref courseId n.toNat).Pairwise
      (fun a b => b.similarity ≤ a.similarity) ∧
    (moreLikeThisSpec db ref courseId n.toNat).length ≤ n.toNat ∧
    (∀ e ∈ moreLikeThisSpec db ref courseId n.toNat,
      ∃ c ∈ db.courses, c.cid ≠ courseId ∧ c.category = ref.category ∧
        c.isPublished = true ∧ c.isDeleted = false ∧
        e = ⟨c, (if c.level = ref.level then (2 : ℚ) else 0) +
          (setIntersectionSize c.tags ref.tags : ℚ) + c.rating * (1 / 2)⟩) := by
  refine ⟨?_, ?_, ?_, ?_⟩
  · simp only [getMoreLikeThis, hf, Option.getD_some, mongoLimit_pos h,
      moreLikeThisSpec]
  · simp only [moreLikeThisSpec]
    exact List.Pairwise.sublist (List.take_sublist _ _) (sortByDesc_sorted _ _)
  · simp only [moreLikeThisSpec]
    rw [List.length_take]
    exact Nat.min_le_left _ _
  · intro e he
    simp only [moreLikeThisSpec] at he
    have he' := (sortByDesc_perm (fun s : ScoredCourse => s.similarity) _).mem_iff.mp
      ((List.take_sublist _ _).subset he)
    obtain ⟨c, hcmem, rfl⟩ := List.mem_map.mp he'
    rw [List.mem_filter] at hcmem
    obtain ⟨hcdb, hcond⟩ := hcmem
    simp only [Bool.and_eq_true, bne_iff_ne, beq_iff_eq,
      Bool.not_eq_true'] at hcond
    exact ⟨c, hcdb, hcond.1.1.1, hcond.1.1.2, hcond.1.2, hcond.2, rfl⟩

/-- Witness for C9 at `mltDb` with reference course 1 and limit 5. -/
theorem more_like_this_matches_spec_witness :
    (0 : ℤ) < 5 ∧
    mltDb.courses.find? (fun c => c.cid == 1) =
      some ⟨1, 10, "beginner", ["a"], 4, 0, 0, true, false⟩ ∧
    getMoreLikeThis mltDb 1 (some 5) =
      .ok (moreLikeThisSpec mltDb ⟨1, 10, "beginner", ["a"], 4, 0, 0, true,
        false⟩ 1 (5 : ℤ).toNat) :=
  ⟨by decide, rfl,
   (more_like_this_matches_spec mltDb 1 5
     ⟨1, 10, "beginner", ["a"], 4, 0, 0, true, false⟩ (by decide) rfl).1⟩

theorem setIntersectionSize_pos {a b : List String}
    (h : a.any (fun t => b.contains t) = true) :
    1 ≤ setIntersectionSize a b := by
  obtain ⟨t, ht, htb⟩ := List.any_eq_true.mp h
  have hmem : t ∈ (a.dedup).filter (fun t => b.contains t) :=
    List.mem_filter.mpr ⟨List.mem_dedup.mpr ht, htb⟩
  unfold setIntersectionSize
  exact List.length_pos.mpr (List.ne_nil_of_mem hmem)

theorem contentScore_pos {db : Db} {courseIds excludeIds : List ℕ}
    {c : Course} (hc : 0 ≤ c.rating)
    (hm : contentMatches db courseIds excludeIds c = true) :
    0 < contentScore db courseIds c := by
  unfold contentMatches at hm
  simp only [Bool.and_eq_true, Bool.or_eq_true] at hm
  have h1 : (0 : ℚ) ≤
      if (sourceCategories db courseIds).contains c.category then (3 : ℚ)
      else 0 := by
    split <;> norm_num
  have h2 : (0 : ℚ) ≤
      if (sourceLevels db courseIds).contains c.level then (1 : ℚ) else 0 := by
    split <;> norm_num
  have h3 : (0 : ℚ) ≤
      (setIntersectionSize c.tags (sourceTags db courseIds) : ℚ) * (1 / 2) := by
    positivity
  have h4 : (0 : ℚ) ≤ c.rating * (1 / 10) := by
    apply mul_nonneg hc
    norm_num
  unfold contentScore
  rcases hm.2 with (hcat | hlev) | htag
  · rw [if_pos hcat]
    linarith
  · rw [if_pos hlev]
    linarith
  · have h5 : (1 : ℚ) ≤
        (setIntersectionSize c.tags (sourceTags db courseIds) : ℚ) := by
      exact_mod_cast setIntersectionSize_pos htag
    linarith

/-- C6 counterexample: in `db6`, catalog course 2 (published, not deleted,
not excluded, rating 4) has content score 0.1·4 = 0.4 > 0 by the claim's
formula, yet `findSimilarCourses` does not keep it: the `$match` stage's
`$or` requires a category, level or tag match before any scoring happens,
so "exactly the candidates with score > 0 are kept" is false. -/
theorem content_positive_score_not_kept :
    (⟨2, 20, "advanced", [], 4, 0, 0, true, false⟩ : Course) ∈ db6.courses ∧
    contentScore db6 [1] ⟨2, 20, "advanced", [], 4, 0, 0, true, false⟩ =
      2 / 5 ∧
    (0 : ℚ) < 2 / 5 ∧
    findSimilarCourses db6 [1] [] = [] := by
  refine ⟨by simp [db6], ?_, by norm_num, ?_⟩
  · norm_num [contentScore, sourceCategories, sourceLevels, sourceTags, db6,
      setIntersectionSize]
    decide
  · norm_num [findSimilarCourses, db6, contentMatches, sourceCategories,
      sourceLevels, sourceTags, contentScore, setIntersectionSize, sortByDesc,
      List.insertionSort, List.orderedInsert]

/-- C6 (amended): for non-negative ratings, the kept candidates are exactly
the published, non-deleted, non-excluded catalog courses matching at least
one of category / level / tags of the source courses (all of which have
score > 0, so the score > 0 stage drops nothing); they carry the score
`3·categoryMatch + 1·levelMatch + 0.5·|tag ∩| + 0.1·rating`, sorted
descending, top 20.  The last conjunct is the spec's example: category and
level match, no tags, rating 4 gives raw score 4.4. -/
theorem content_similarity_characterization (db : Db)
    (courseIds excludeIds : List ℕ)
    (hr : ∀ c ∈ db.courses, 0 ≤ c.rating) :
    (∀ e ∈ findSimilarCourses db courseIds excludeIds,
      ∃ c ∈ db.courses, contentMatches db courseIds excludeIds c = true ∧
        e = ⟨c.cid, contentScore db courseIds c⟩ ∧ 0 < e.score) ∧
    (findSimilarCourses db courseIds excludeIds).Pairwise
      (fun a b => b.score ≤ a.score) ∧
    (findSimilarCourses db courseIds excludeIds).length ≤ 20 ∧
    (∀ c ∈ db.courses, contentMatches db courseIds excludeIds c = true →
      (⟨c.cid, contentScore db courseIds c⟩ : Rec) ∈
          findSimilarCourses db courseIds excludeIds ∨
      (findSimilarCourses db courseIds excludeIds).length = 20) ∧
    contentScore contentDb [1] ⟨4, 10, "beginner", [], 4, 0, 0, true, false⟩ =
      22 / 5 := by
  by_cases hempty : courseIds = []
  · subst hempty
    have hres : findSimilarCourses db [] excludeIds = [] := rfl
    have hf : db.courses.filter (fun c => ([] : List ℕ).contains c.cid) = [] :=
      List.filter_eq_nil_iff.mpr (fun x _ h => Bool.false_ne_true h)
    have hsc : sourceCategories db [] = [] := by
      unfold sourceCategories
      rw [hf]
      rfl
    have hsl : sourceLevels db [] = [] := by
      unfold sourceLevels
      rw [hf]
      rfl
    have hst : sourceTags db [] = [] := by
      unfold sourceTags
      rw [hf]
      rfl
    refine ⟨?_, ?_, ?_, ?_, ?_⟩
    · intro e he
      rw [hres] at he
      exact absurd he (List.not_mem_nil e)
    · rw [hres]
      exact List.Pairwise.nil
    · rw [hres]
      simp
    · intro c _ hm
      exfalso
      unfold contentMatches at hm
      rw [hsc, hsl, hst] at hm
      simp [List.contains] at hm
    · norm_num [contentScore, sourceCategories, sourceLevels, sourceTags,
        contentDb, setIntersectionSize]
  · have hres : findSimilarCourses db courseIds excludeIds =
        (sortByDesc (fun r : Rec => r.score)
          (((db.courses.filter (contentMatches db courseIds excludeIds)).map
            (fun c => Rec.mk c.cid (contentScore db courseIds c))).filter
            (fun r => decide (0 < r.score)))).take 20 := by
      simp only [findSimilarCourses, if_neg hempty]
    refine ⟨?_, ?_, ?_, ?_, ?_⟩
    · intro e he
      rw [hres] at he
      have he' := (sortByDesc_perm (fun r : Rec => r.score) _).mem_iff.mp
        ((List.take_sublist _ _).subset he)
      obtain ⟨hmem, hpos⟩ := List.mem_filter.mp he'
      obtain ⟨c, hcmem, rfl⟩ := List.mem_map.mp hmem
      obtain ⟨hcdb, hmatch⟩ := List.mem_filter.mp hcmem
      exact ⟨c, hcdb, hmatch, rfl, of_decide_eq_true hpos⟩
    · rw [hres]
      exact List.Pairwise.sublist (List.take_sublist _ _)
        (sortByDesc_sorted _ _)
    · rw [hres]
      rw [List.length_take]
      exact Nat.min_le_left _ _
    · intro c hcdb hm
      rw [hres]
      have h1 : (⟨c.cid, contentScore db courseIds c⟩ : Rec) ∈
          ((db.courses.filter (contentMatches db courseIds excludeIds)).map
            (fun c => Rec.mk c.cid (contentScore db courseIds c))).filter
            (fun r => decide (0 < r.score)) := by
        refine List.mem_filter.mpr ⟨List.mem_map_of_mem _
          (List.mem_filter.mpr ⟨hcdb, hm⟩), ?_⟩
        exact decide_eq_true (contentScore_pos (hr c hcdb) hm)
      have h2 := (sortByDesc_perm (fun r : Rec => r.score) _).mem_iff.mpr h1
      exact mem_take_or_length h2
    · norm_num [contentScore, sourceCategories, sourceLevels, sourceTags,
        contentDb, setIntersectionSize]

/-- Witness for the amended C6 at `contentDb` (ratings 0 and 4, source
course 1, candidate 3 matching on category). -/
theorem content_similarity_characterization_witness :
    (∀ c ∈ contentDb.courses, 0 ≤ c.rating) ∧
    contentScore contentDb [1] ⟨4, 10, "beginner", [], 4, 0, 0, true, false⟩ =
      22 / 5 :=
  ⟨by decide,
   (content_similarity_characterization contentDb [1] [] (by decide)).2.2.2.2⟩

theorem contains_true_iff {α : Type} [BEq α] [LawfulBEq α] {l : List α}
    {a : α} : l.contains a = true ↔ a ∈ l :=
  List.elem_iff

theorem mem_groupCounts {keys : List ℕ} {a b : ℕ} :
    (a, b) ∈ groupCounts keys ↔
      a ∈ keys ∧ b = (keys.filter (fun x => x == a)).length := by
  unfold groupCounts
  rw [List.mem_map]
  constructor
  · rintro ⟨k, hk, heq⟩
    rw [Prod.mk.injEq] at heq
    obtain ⟨rfl, rfl⟩ := heq
    exact ⟨mem_firstDedup.mp hk, rfl⟩
  · rintro ⟨h1, rfl⟩
    exact ⟨a, mem_firstDedup.mpr h1, rfl⟩

theorem matched_count (db : Db) (uid : ℕ) (C : List ℕ) {s : ℕ}
    (hs : s ≠ uid) :
    (((db.progress.filter (fun p =>
        p.student != uid && C.contains p.course && p.isCompleted)).map
      (fun p => p.student)).filter (fun x => x == s)).length =
    sharedCompleted db s C := by
  rw [List.filter_map, List.length_map, List.filter_filter]
  unfold sharedCompleted
  apply congrArg List.length
  apply List.filter_congr
  intro p _
  by_cases hps : p.student = s
  · cases hcomp : p.isCompleted <;> cases hcont : C.contains p.course <;>
      simp [Function.comp, hps, hcomp, hcont, bne, hs]
  · have hfalse : (p.student == s) = false := beq_eq_false_iff_ne.mpr hps
    simp [hfalse]

theorem nodup_courses_of_pairs {A : List Progress} {s : ℕ}
    (hpairs : (A.map (fun p => (p.student, p.course))).Nodup)
    (hs : ∀ p ∈ A, p.student = s) :
    (A.map (fun p => p.course)).Nodup := by
  induction A with
  | nil => simp
  | cons a A ih =>
    simp only [List.map_cons, List.nodup_cons] at hpairs ⊢
    refine ⟨?_, ih hpairs.2 (fun p hp => hs p (List.mem_cons_of_mem _ hp))⟩
    intro hmem
    obtain ⟨p, hp, hpc⟩ := List.mem_map.mp hmem
    apply hpairs.1
    rw [List.mem_map]
    refine ⟨p, hp, ?_⟩
    have h1 : p.student = a.student := by
      rw [hs p (List.mem_cons_of_mem _ hp), hs a (List.mem_cons_self _ _)]
    rw [h1, hpc]

theorem sharedCompleted_filter (db : Db) (s : ℕ) (C : List ℕ) :
    db.progress.filter (fun p =>
        p.student == s && p.isCompleted && C.contains p.course) =
    (db.progress.filter (fun p => p.isCompleted)).filter
      (fun p => p.student == s && C.contains p.course) := by
  rw [List.filter_filter]
  apply List.filter_congr
  intro p _
  cases hcomp : p.isCompleted <;> cases hcont : C.contains p.course <;>
    cases hst : p.student == s <;> simp [hcomp, hcont, hst]

theorem sharedCompleted_eq_distinct (db : Db) (s : ℕ) (C : List ℕ)
    (hnd : pairsNodup db) (hC : C.Nodup) :
    sharedCompleted db s C = distinctSharedCompleted db s C := by
  unfold pairsNodup at hnd
  have hpairsA : ((db.progress.filter (fun p =>
      p.student == s && p.isCompleted && C.contains p.course)).map
      (fun p => (p.student, p.course))).Nodup := by
    rw [sharedCompleted_filter]
    exact List.Nodup.sublist
      (List.Sublist.map _ (List.filter_sublist _)) hnd
  have hstudents : ∀ p ∈ db.progress.filter (fun p =>
      p.student == s && p.isCompleted && C.contains p.course),
      p.student = s := by
    intro p hp
    have h := (List.mem_filter.mp hp).2
    simp only [Bool.and_eq_true, beq_iff_eq] at h
    exact h.1.1
  have hcourses := nodup_courses_of_pairs hpairsA hstudents
  have hB : (C.filter (fun c => db.progress.any (fun p =>
      p.student == s && p.course == c && p.isCompleted))).Nodup :=
    hC.filter _
  have hmemiff : ∀ x, x ∈ (db.progress.filter (fun p =>
      p.student == s && p.isCompleted && C.contains p.course)).map
      (fun p => p.course) ↔
      x ∈ C.filter (fun c => db.progress.any (fun p =>
        p.student == s && p.course == c && p.isCompleted)) := by
    intro x
    constructor
    · intro hx
      obtain ⟨p, hp, rfl⟩ := List.mem_map.mp hx
      obtain ⟨hpprog, hpred⟩ := List.mem_filter.mp hp
      simp only [Bool.and_eq_true, beq_iff_eq] at hpred
      refine List.mem_filter.mpr ⟨contains_true_iff.mp hpred.2, ?_⟩
      exact List.any_eq_true.mpr ⟨p, hpprog, by simp [hpred.1.1, hpred.1.2]⟩
    · intro hx
      obtain ⟨hxC, hany⟩ := List.mem_filter.mp hx
      obtain ⟨p, hpprog, hpred⟩ := List.any_eq_true.mp hany
      simp only [Bool.and_eq_true, beq_iff_eq] at hpred
      refine List.mem_map.mpr ⟨p, List.mem_filter.mpr ⟨hpprog, ?_⟩, hpred.1.2⟩
      simp only [Bool.and_eq_true, beq_iff_eq]
      exact ⟨⟨hpred.1.1, hpred.2⟩,
        contains_true_iff.mpr (hpred.1.2 ▸ hxC)⟩
  have hperm := (List.perm_ext_iff_of_nodup hcourses hB).mpr hmemiff
  have hlen := hperm.length_eq
  unfold sharedCompleted distinctSharedCompleted
  rw [← List.length_map (db.progress.filter (fun p =>
      p.student == s && p.isCompleted && C.contains p.course))
    (fun p => p.course)]
  exact hlen

/-- C5: `findSimilarUsers` with an empty completed set returns the empty
list; otherwise it returns at most 10 entries sorted by similarity
descending, each entry is another learner with a user record whose number
of common completed courses (equal to the number of distinct courses of `C`
they completed, given duplicate-free progress) is at least `min(3, |C|)`
and whose similarity is that count divided by `|C|`; every such learner
appears unless the list was truncated at 10.  The last conjunct is the
spec's scenario 2: two learners sharing exactly the 3 courses 100, 101,
102 produce similarity 3/3 = 1. -/
theorem similar_learner_characterization (db : Db) (uid : ℕ) (C : List ℕ)
    (hnd : pairsNodup db) (hC : C.Nodup)
    (husers : ∀ p ∈ db.progress, ∃ u ∈ db.users, u.uid = p.student) :
    (C = [] → findSimilarUsers db uid C = []) ∧
    (findSimilarUsers db uid C).length ≤ 10 ∧
    (findSimilarUsers db uid C).Pairwise
      (fun a b => b.similarity ≤ a.similarity) ∧
    (∀ e ∈ findSimilarUsers db uid C,
      e.userId ≠ uid ∧ (∃ u ∈ db.users, u.uid = e.userId) ∧
      e.commonCourses = sharedCompleted db e.userId C ∧
      min 3 C.length ≤ e.commonCourses ∧
      e.similarity = (e.commonCourses : ℚ) / (C.length : ℚ) ∧
      e.commonCourses = distinctSharedCompleted db e.userId C) ∧
    (∀ s, C ≠ [] → s ≠ uid → min 3 C.length ≤ sharedCompleted db s C →
      s ∈ (findSimilarUsers db uid C).map (fun e => e.userId) ∨
      (findSimilarUsers db uid C).length = 10) ∧
    findSimilarUsers simDb 1 [100, 101, 102] = [⟨2, 3, 1⟩] := by
  have hscenario : findSimilarUsers simDb 1 [100, 101, 102] = [⟨2, 3, 1⟩] := by
    have h0 : ([100, 101, 102] : List ℕ) ≠ [] := by simp
    norm_num [findSimilarUsers, h0, simDb, groupCounts, firstDedup,
      firstDedupAux, sortByDesc, List.insertionSort, List.orderedInsert]
  by_cases hempty : C = []
  · subst hempty
    have hres : findSimilarUsers db uid [] = [] := rfl
    rw [hres]
    refine ⟨fun _ => rfl, by simp, List.Pairwise.nil, ?_, ?_, hscenario⟩
    · intro e he
      exact absurd he (List.not_mem_nil e)
    · intro s hne
      exact absurd rfl hne
  · have hunfold : findSimilarUsers db uid C =
        (sortByDesc (fun x => x.similarity)
          ((((groupCounts ((db.progress.filter (fun p =>
              p.student != uid && C.contains p.course &&
                p.isCompleted)).map (fun p => p.student))).filter
            (fun g => decide (min 3 C.length ≤ g.2))).filter
            (fun g => db.users.any (fun u => u.uid == g.1))).map
            (fun g => SimilarUser.mk g.1 g.2
              ((g.2 : ℚ) / (C.length : ℚ))))).take 10 := by
      simp only [findSimilarUsers, if_neg hempty]
    refine ⟨fun h => absurd h hempty, ?_, ?_, ?_, ?_, hscenario⟩
    · rw [hunfold, List.length_take]
      exact Nat.min_le_left _ _
    · rw [hunfold]
      exact List.Pairwise.sublist (List.take_sublist _ _)
        (sortByDesc_sorted _ _)
    · intro e he
      rw [hunfold] at he
      have he' := (sortByDesc_perm (fun x : SimilarUser => x.similarity)
        _).mem_iff.mp ((List.take_sublist _ _).subset he)
      obtain ⟨g, hg, rfl⟩ := List.mem_map.mp he'
      obtain ⟨a, b⟩ := g
      obtain ⟨hthr, hany⟩ := List.mem_filter.mp hg
      obtain ⟨hgrp, hmin⟩ := List.mem_filter.mp hthr
      obtain ⟨hkeys, hcount⟩ := mem_groupCounts.mp hgrp
      obtain ⟨p, hpmatch, hpa⟩ := List.mem_map.mp hkeys
      obtain ⟨hpprog, hppred⟩ := List.mem_filter.mp hpmatch
      simp only [Bool.and_eq_true, bne_iff_ne, ne_eq] at hppred
      have hane : a ≠ uid := hpa ▸ hppred.1.1
      have hbshared : b = sharedCompleted db a C := by
        rw [hcount]
        exact matched_count db uid C hane
      obtain ⟨u, humem, hubeq⟩ := List.any_eq_true.mp hany
      refine ⟨hane, ⟨u, humem, by simpa using hubeq⟩, hbshared, ?_, rfl,
        hbshared.trans (sharedCompleted_eq_distinct db a C hnd hC)⟩
      exact of_decide_eq_true hmin
    · intro s hCne hs hthr
      have hlenC : 1 ≤ C.length := by
        cases C with
        | nil => exact absurd rfl hCne
        | cons c cs => simp
      have hshared1 : 1 ≤ sharedCompleted db s C := by
        have : 1 ≤ min 3 C.length := by omega
        omega
      have hAne : db.progress.filter (fun p =>
          p.student == s && p.isCompleted && C.contains p.course) ≠ [] := by
        intro hcontra
        unfold sharedCompleted at hshared1
        rw [hcontra] at hshared1
        simp at hshared1
      obtain ⟨p, hpA⟩ := List.exists_mem_of_ne_nil _ hAne
      obtain ⟨hpprog, hppred⟩ := List.mem_filter.mp hpA
      simp only [Bool.and_eq_true, beq_iff_eq] at hppred
      have hpmatch : p ∈ db.progress.filter (fun p =>
          p.student != uid && C.contains p.course && p.isCompleted) := by
        refine List.mem_filter.mpr ⟨hpprog, ?_⟩
        simp only [Bool.and_eq_true, bne_iff_ne, ne_eq]
        exact ⟨⟨hppred.1.1 ▸ hs, hppred.2⟩, hppred.1.2⟩
      have hkeys : s ∈ (db.progress.filter (fun p =>
          p.student != uid && C.contains p.course && p.isCompleted)).map
          (fun p => p.student) :=
        List.mem_map.mpr ⟨p, hpmatch, hppred.1.1⟩
      have hgrp : (s, sharedCompleted db s C) ∈
          groupCounts ((db.progress.filter (fun p =>
            p.student != uid && C.contains p.course && p.isCompleted)).map
            (fun p => p.student)) :=
        mem_groupCounts.mpr ⟨hkeys, (matched_count db uid C hs).symm⟩
      have hthrmem : (s, sharedCompleted db s C) ∈
          ((groupCounts ((db.progress.filter (fun p =>
            p.student != uid && C.contains p.course && p.isCompleted)).map
            (fun p => p.student))).filter
            (fun g => decide (min 3 C.length ≤ g.2))) :=
        List.mem_filter.mpr ⟨hgrp, decide_eq_true hthr⟩
      obtain ⟨u, humem, huuid⟩ := husers p hpprog
      have hwithuser : (s, sharedCompleted db s C) ∈
          (((groupCounts ((db.progress.filter (fun p =>
            p.student != uid && C.contains p.course && p.isCompleted)).map
            (fun p => p.student))).filter
            (fun g => decide (min 3 C.length ≤ g.2))).filter
            (fun g => db.users.any (fun u => u.uid == g.1))) := by
        refine List.mem_filter.mpr ⟨hthrmem, ?_⟩
        exact List.any_eq_true.mpr ⟨u, humem,
          by simp [huuid.trans hppred.1.1]⟩
      have hproj : SimilarUser.mk s (sharedCompleted db s C)
          ((sharedCompleted db s C : ℚ) / (C.length : ℚ)) ∈
          ((((groupCounts ((db.progress.filter (fun p =>
            p.student != uid && C.contains p.course &&
              p.isCompleted)).map (fun p => p.student))).filter
            (fun g => decide (min 3 C.length ≤ g.2))).filter
            (fun g => db.users.any (fun u => u.uid == g.1))).map
            (fun g => SimilarUser.mk g.1 g.2
              ((g.2 : ℚ) / (C.length : ℚ)))) :=
        List.mem_map_of_mem _ hwithuser
      have hsort := (sortByDesc_perm (fun x : SimilarUser => x.similarity)
        _).mem_iff.mpr hproj
      rcases mem_take_or_length (n := 10) hsort with hin | hlen10
      · left
        rw [hunfold]
        exact List.mem_map.mpr ⟨_, hin, rfl⟩
      · right
        rw [hunfold, List.length_take]
        rw [List.length_take] at hlen10
        exact hlen10

/-- Witness for C5 at `simDb` (spec scenario 2): learners 1 and 2 share
exactly the completed courses 100, 101, 102. -/
theorem similar_learner_characterization_witness :
    pairsNodup simDb ∧ ([100, 101, 102] : List ℕ).Nodup ∧
    (∀ p ∈ simDb.progress, ∃ u ∈ simDb.users, u.uid = p.student) ∧
    findSimilarUsers simDb 1 [100, 101, 102] = [⟨2, 3, 1⟩] :=
  ⟨by decide, by decide, by decide,
   (similar_learner_characterization simDb 1 [100, 101, 102]
     (by decide) (by decide) (by decide)).2.2.2.2.2⟩

end RecEngine
